import Mathlib

/-!
Verification of the Mizzle-Drive disk-image lifecycle tool (src/main.rs).

The program provisions a virtual disk: it creates a fully allocated backing
file (`create_fully_allocated_file`), formats it with mkfs.ext4, mounts it
(`mount_virtual_disk`), copies one file into the mount (`copy_file_to_mount`),
and unmounts.  We model the file contents as lists of bytes, the host
filesystem as a partial map from paths to contents, and OS-dependent outcomes
(mkfs, mount(2), umount2) as explicit environment parameters.  Machine
integers are modelled as `Nat` with the `u64 → i64` casts of the source made
explicit (`2 ^ 63 ≤ size` makes the cast negative).
-/

/-- Bytes are modelled as natural numbers (the value of each `u8`). -/
abbrev Byte := Nat

instance {ε α : Type _} [DecidableEq ε] [DecidableEq α] :
    DecidableEq (Except ε α) := fun a b =>
  match a, b with
  | .error e, .error f =>
      if h : e = f then isTrue (by rw [h])
      else isFalse (by intro hh; injection hh; exact h (by assumption))
  | .error _, .ok _ => isFalse (by intro hh; injection hh)
  | .ok _, .error _ => isFalse (by intro hh; injection hh)
  | .ok x, .ok y =>
      if h : x = y then isTrue (by rw [h])
      else isFalse (by intro hh; injection hh; exact h (by assumption))

/-- The host filesystem: a partial map from path strings to file contents.
`none` means no file exists at that path. -/
@[ext] structure FS where
  files : String → Option (List Byte)

/-- The empty filesystem, with no files. -/
def FS.empty : FS := ⟨fun _ => none⟩

/-- Replace (or create) the file at path `p` with contents `c`. -/
def FS.update (fs : FS) (p : String) (c : List Byte) : FS :=
  ⟨fun q => if q = p then some c else fs.files q⟩

/-- Semantics of `ftruncate(fd, n)` on contents `c`: truncate to the first
`n` bytes, or extend with zero bytes up to length `n`. -/
def truncateTo (c : List Byte) (n : Nat) : List Byte :=
  if n ≤ c.length then c.take n else c ++ List.replicate (n - c.length) 0

/-- Overwrite the front of `d` with `data`, keeping whatever part of `d`
extends beyond `data` (a POSIX write at offset 0 does not truncate). -/
def overwrite : List Byte → List Byte → List Byte
  | [], d => d
  | b :: data, [] => b :: overwrite data []
  | b :: data, _ :: d => b :: overwrite data d

/-- Semantics of a positioned POSIX write: write `data` into `d` at offset
`p`, zero-filling any gap between the end of `d` and `p` (file holes read as
zero).  A zero-length write never changes the file. -/
def writeAt : Nat → List Byte → List Byte → List Byte
  | 0, data, d => overwrite data d
  | _ + 1, [], d => d
  | p + 1, b :: data, [] => 0 :: writeAt p (b :: data) []
  | p + 1, b :: data, x :: d => x :: writeAt p (b :: data) d

/-- File operations performed by the allocator, in order, mirroring the
syscall sequence of `create_fully_allocated_file` in src/main.rs. -/
inductive FileOp where
  | openCreate : FileOp
  | ftrunc : Nat → FileOp
  | seek : Int → FileOp
  | writeOp : Nat → FileOp
  | closeOp : FileOp
deriving DecidableEq

/-- The constant `IMAGE_PATH` of src/main.rs. -/
def IMAGE_PATH : String := "/tmp/virtual_disk.img"

/-- The constant `MOUNT_POINT` of src/main.rs. -/
def MOUNT_POINT : String := "/tmp/virtual_disk"

/-- The constant `DISK_SIZE` of src/main.rs (10 GiB). -/
def DISK_SIZE : Nat := 10 * 1024 * 1024 * 1024

/-- Model of `create_fully_allocated_file(path, size)` from src/main.rs.
It opens the file with write+create (no truncate flag, so an existing file
keeps its contents), calls `ftruncate(fd, size as i64)`, then
`lseek(fd, size as i64 - 1, SEEK_SET)` followed by `write(fd, &[0])`, and
closes the fd.  The `u64 → i64` cast makes a syscall fail with `EINVAL`
(errno 22) when its argument is negative: `ftruncate` when
`2 ^ 63 ≤ size`, and `lseek` when `size = 0` (offset `-1`).  An early return
through `?` keeps the file mutations already performed.  Returns the new
filesystem, the trace of file operations attempted, and the result. -/
def create_fully_allocated_file (fs : FS) (path : String) (size : Nat) :
    FS × List FileOp × Except Nat Unit :=
  let c0 := (fs.files path).getD []
  let fs1 := fs.update path c0
  if 2 ^ 63 ≤ size then
    (fs1, [.openCreate, .ftrunc size], .error 22)
  else
    let c1 := truncateTo c0 size
    let fs2 := fs1.update path c1
    if size = 0 then
      (fs2, [.openCreate, .ftrunc size, .seek (-1)], .error 22)
    else
      let c2 := writeAt (size - 1) [0] c1
      (fs2.update path c2,
       [.openCreate, .ftrunc size, .seek ((size : Int) - 1), .writeOp 1,
        .closeOp],
       .ok ())

/-- Transfer-error taxonomy of spec §4.4; `copy_file_to_mount` in src/main.rs
returns the io::Error of `File::open`, which is `NotFound` when the source
file does not exist (classified here as `sourceNotFound`). -/
inductive TransferError where
  | sourceNotFound : TransferError
  | ioErr : Nat → TransferError
deriving DecidableEq

/-- Model of `Path::new(MOUNT_POINT).join(destination)` for a relative
destination path. -/
def mountJoin (destination : String) : String :=
  MOUNT_POINT ++ "/" ++ destination

/-- The read/write loop of `copy_file_to_mount` (src/main.rs lines 82-91):
repeatedly read up to 4096 bytes from the remaining source, write the chunk
fully at the destination cursor (`write_all`), and stop when a read returns
0 bytes.  `src` is the unread part of the source, `dest` the destination
contents, `pos` the destination file cursor. -/
def copyLoop : List Byte → List Byte → Nat → List Byte
  | [], dest, _ => dest
  | b :: src, dest, pos =>
      copyLoop ((b :: src).drop 4096)
        (writeAt pos ((b :: src).take 4096) dest)
        (pos + ((b :: src).take 4096).length)
termination_by src _ _ => src.length
decreasing_by simp [List.length_drop]; omega

/-- The sequence of chunks the loop of `copy_file_to_mount` reads (and
writes): successive blocks of at most 4096 bytes until the source is
exhausted.  The loop performs exactly one further read, returning 0 bytes,
after the last chunk. -/
def copyChunks : List Byte → List (List Byte)
  | [] => []
  | b :: src => ((b :: src).take 4096) :: copyChunks ((b :: src).drop 4096)
termination_by src => src.length
decreasing_by simp [List.length_drop]; omega

/-- Model of `copy_file_to_mount(source_file, destination)` from src/main.rs.
Opens the source for reading (failing when it does not exist), opens the
destination `MOUNT_POINT/destination` with write+create — and, notably,
WITHOUT a truncate flag, so existing destination bytes beyond the copied
range survive — then streams the source through `copyLoop`. -/
def copy_file_to_mount (fs : FS) (source_file : String)
    (destination : String) : FS × Except TransferError Unit :=
  match fs.files source_file with
  | none => (fs, .error .sourceNotFound)
  | some src =>
      let destPath := mountJoin destination
      let old := (fs.files destPath).getD []
      (fs.update destPath (copyLoop src old 0), .ok ())

/-- OS-level operations attempted by `mount_virtual_disk`. -/
inductive MountOp where
  | mkdirAll : MountOp
  | osMount : MountOp
deriving DecidableEq

/-- Environment for one call to `mount_virtual_disk`: whether the target
directory already exists, and the outcomes the OS would give to
`create_dir_all` and to the `mount(2)` syscall (`some errno` = failure). -/
structure MountEnv where
  targetExists : Bool
  mkdirErr : Option Nat
  osMountErr : Option Nat
deriving DecidableEq

/-- Model of `mount_virtual_disk()` from src/main.rs: create the mount-point
directory when absent, then unconditionally attempt the OS `mount(2)` call of
the image at the mount point.  The function keeps NO session bookkeeping of
whether the target is already mounted; it returns exactly what the OS
reports.  Returns the trace of OS operations attempted and the result. -/
def mount_virtual_disk (env : MountEnv) : List MountOp × Except Nat Unit :=
  if env.targetExists then
    match env.osMountErr with
    | some e => ([.osMount], .error e)
    | none => ([.osMount], .ok ())
  else
    match env.mkdirErr with
    | some e => ([.mkdirAll], .error e)
    | none =>
        match env.osMountErr with
        | some e => ([.mkdirAll, .osMount], .error e)
        | none => ([.mkdirAll, .osMount], .ok ())

/-- Session bookkeeping in the sense of spec §3 (`MountPoint.isMounted`):
`true` after a call to `mount_virtual_disk` that succeeded, otherwise the
previous value. -/
def sessionIsMountedAfter (env : MountEnv) (wasMounted : Bool) : Bool :=
  match (mount_virtual_disk env).2 with
  | .ok _ => true
  | .error _ => wasMounted

/-- The five pipeline steps of `main` in src/main.rs. -/
inductive PipeStep where
  | allocate : PipeStep
  | format : PipeStep
  | mount : PipeStep
  | transfer : PipeStep
  | unmount : PipeStep
deriving DecidableEq

/-- Environment for one run of `main`: the outcome each step would have if
attempted (allocation, mkfs.ext4 subprocess, mount(2), the file copy, and
umount2), capturing the OS- and filesystem-dependent results. -/
structure OrchEnv where
  allocRes : Except Nat Unit
  formatRes : Except Nat Unit
  mountRes : Except Nat Unit
  transferRes : Except TransferError Unit
  unmountRes : Except Nat Unit

/-- Outcome of one run of `main`: which steps were attempted (in order),
the status lines printed to stdout/stderr, and whether `main` returned
`Ok(())` (process exit code 0) or `Err` (exit code 1). -/
structure RunResult where
  steps : List PipeStep
  messages : List String
  exitOk : Bool
deriving DecidableEq

/-- The process exit code determined by `main`'s return value: `Ok(())`
gives 0 and `Err(_)` gives 1 (Rust's `Termination` for `io::Result`). -/
def exitCode (r : RunResult) : Nat := if r.exitOk then 0 else 1

/-- Model of `main()` from src/main.rs.  Allocation and format failures
propagate through `?` (fatal).  A mount failure prints an error and returns
`Err` (fatal).  A transfer failure only prints an error and execution falls
through to the unmount attempt; an unmount failure also only prints an
error; in both cases `main` still returns `Ok(())`. -/
def mainRun (env : OrchEnv) : RunResult :=
  match env.allocRes with
  | .error _ => ⟨[.allocate], [], false⟩
  | .ok _ =>
    match env.formatRes with
    | .error _ =>
        ⟨[.allocate, .format],
         ["Fully allocated 10GB virtual disk image created."], false⟩
    | .ok _ =>
      match env.mountRes with
      | .error _ =>
          ⟨[.allocate, .format, .mount],
           ["Fully allocated 10GB virtual disk image created.",
            "Virtual disk image formatted as ext4.",
            "Failed to mount virtual disk"], false⟩
      | .ok _ =>
          let m3 :=
            ["Fully allocated 10GB virtual disk image created.",
             "Virtual disk image formatted as ext4.",
             "Virtual disk mounted."]
          let m4 :=
            match env.transferRes with
            | .ok _ => m3 ++ ["File copied to virtual disk."]
            | .error _ => m3 ++ ["Failed to copy file"]
          let m5 :=
            match env.unmountRes with
            | .ok _ => m4 ++ ["Virtual disk unmounted."]
            | .error _ => m4 ++ ["Failed to unmount virtual disk"]
          ⟨[.allocate, .format, .mount, .transfer, .unmount], m5, true⟩

/-- Boolean test for an `Except` error value. -/
def isErrB : Except ε α → Bool
  | .error _ => true
  | .ok _ => false

@[simp] theorem FS.update_files_self (fs : FS) (p : String) (c : List Byte) :
    (fs.update p c).files p = some c := by
  simp [FS.update]

theorem FS.update_files_of_ne (fs : FS) (p q : String) (c : List Byte)
    (h : q ≠ p) : (fs.update p c).files q = fs.files q := by
  simp [FS.update, h]

theorem overwrite_eq_append (a : List Byte) :
    ∀ d : List Byte, overwrite a d = a ++ d.drop a.length := by
  induction a with
  | nil => intro d; simp [overwrite]
  | cons b a ih =>
      intro d
      cases d with
      | nil => simp [overwrite, ih]
      | cons x d => simp [overwrite, ih]

theorem overwrite_length (a : List Byte) :
    ∀ d : List Byte, (overwrite a d).length = max a.length d.length := by
  induction a with
  | nil => intro d; simp [overwrite]
  | cons b a ih =>
      intro d
      cases d with
      | nil => simp [overwrite, ih]
      | cons x d => simp [overwrite, ih]; omega

theorem truncateTo_length (c : List Byte) (n : Nat) :
    (truncateTo c n).length = n := by
  unfold truncateTo
  split <;> simp <;> omega

theorem truncateTo_of_length (c : List Byte) (n : Nat) (h : c.length = n) :
    truncateTo c n = c := by
  unfold truncateTo
  rw [if_pos (le_of_eq h.symm)]
  rw [← h, List.take_length]

theorem writeAt_single_get (b : Byte) :
    ∀ (p : Nat) (d : List Byte), (writeAt p [b] d)[p]? = some b := by
  intro p
  induction p with
  | zero =>
      intro d
      cases d <;> simp [writeAt, overwrite]
  | succ p ih =>
      intro d
      cases d with
      | nil => simpa [writeAt] using ih []
      | cons x d => simpa [writeAt] using ih d

theorem writeAt_single_length (b : Byte) :
    ∀ (p : Nat) (d : List Byte),
      (writeAt p [b] d).length = max (p + 1) d.length := by
  intro p
  induction p with
  | zero =>
      intro d
      cases d <;> simp [writeAt, overwrite]
  | succ p ih =>
      intro d
      cases d with
      | nil => simp [writeAt, ih]
      | cons x d => simp [writeAt, ih]; omega

theorem writeAt_single_of_get (b : Byte) :
    ∀ (p : Nat) (d : List Byte), d[p]? = some b → writeAt p [b] d = d := by
  intro p
  induction p with
  | zero =>
      intro d h
      cases d with
      | nil => simp at h
      | cons x d =>
          simp at h
          simp [writeAt, overwrite, h]
  | succ p ih =>
      intro d h
      cases d with
      | nil => simp at h
      | cons x d =>
          simp at h
          simp [writeAt, ih d h]

theorem overwrite_writeAt (a : List Byte) :
    ∀ (pre : List Byte) (d : List Byte),
      writeAt pre.length a (overwrite pre d) = overwrite (pre ++ a) d := by
  intro pre
  induction pre with
  | nil => intro d; rfl
  | cons x pre ih =>
      intro d
      cases d with
      | nil =>
          cases a with
          | nil => simp [overwrite, writeAt]
          | cons b a => simp [overwrite, writeAt, ih]
      | cons y d =>
          cases a with
          | nil => simp [overwrite, writeAt]
          | cons b a => simp [overwrite, writeAt, ih]

theorem copyLoop_eq_aux (n : Nat) :
    ∀ (src pre d : List Byte), src.length ≤ n →
      copyLoop src (overwrite pre d) pre.length = overwrite (pre ++ src) d := by
  induction n with
  | zero =>
      intro src pre d h
      have : src = [] := List.eq_nil_of_length_eq_zero (Nat.le_zero.mp h)
      subst this
      simp [copyLoop]
  | succ n ih =>
      intro src pre d h
      cases src with
      | nil => simp [copyLoop]
      | cons b s =>
          rw [copyLoop, overwrite_writeAt]
          have hlen : pre.length + ((b :: s).take 4096).length =
              (pre ++ (b :: s).take 4096).length := by simp
          rw [hlen,
            ih ((b :: s).drop 4096) (pre ++ (b :: s).take 4096) d
              (by simp [List.length_drop] at h ⊢; omega),
            List.append_assoc, List.take_append_drop]

/-- The net effect of the read/write loop starting at cursor 0: the source
bytes overwrite the front of the destination, and destination bytes beyond
the source's length are untouched. -/
theorem copyLoop_eq_overwrite (src d : List Byte) :
    copyLoop src d 0 = overwrite src d := by
  simpa using copyLoop_eq_aux src.length src [] d le_rfl

theorem copyChunks_flatten_aux (n : Nat) :
    ∀ src : List Byte, src.length ≤ n → (copyChunks src).flatten = src := by
  induction n with
  | zero =>
      intro src h
      have : src = [] := List.eq_nil_of_length_eq_zero (Nat.le_zero.mp h)
      subst this
      simp [copyChunks]
  | succ n ih =>
      intro src h
      cases src with
      | nil => simp [copyChunks]
      | cons b s =>
          rw [copyChunks, List.flatten_cons,
            ih ((b :: s).drop 4096) (by simp [List.length_drop] at h ⊢; omega),
            List.take_append_drop]

theorem copyChunks_flatten (src : List Byte) :
    (copyChunks src).flatten = src :=
  copyChunks_flatten_aux src.length src le_rfl

/-- Characterization of a copy whose source exists: it succeeds and the
destination's new contents are the source followed by the prior destination
bytes beyond the source's length. -/
theorem copy_files_char (fs : FS) (sp dp : String) (src : List Byte)
    (hs : fs.files sp = some src) :
    (copy_file_to_mount fs sp dp).2 = Except.ok () ∧
    (copy_file_to_mount fs sp dp).1.files (mountJoin dp) =
      some (src ++ ((fs.files (mountJoin dp)).getD []).drop src.length) := by
  constructor
  · simp [copy_file_to_mount, hs]
  · simp [copy_file_to_mount, hs, copyLoop_eq_overwrite, overwrite_eq_append]

theorem copyChunks_bounds_aux (n : Nat) :
    ∀ src : List Byte, src.length ≤ n →
      ∀ c ∈ copyChunks src, 0 < c.length ∧ c.length ≤ 4096 := by
  induction n with
  | zero =>
      intro src h
      have : src = [] := List.eq_nil_of_length_eq_zero (Nat.le_zero.mp h)
      subst this
      simp [copyChunks]
  | succ n ih =>
      intro src h c hc
      cases src with
      | nil => simp [copyChunks] at hc
      | cons b s =>
          rw [copyChunks] at hc
          rcases List.mem_cons.mp hc with rfl | hmem
          · refine ⟨by simp [List.length_take], by simp [List.length_take]⟩
          · exact ih ((b :: s).drop 4096)
              (by simp [List.length_drop] at h ⊢; omega) c hmem

/-- C9: `copy_file_to_mount` opens the destination with create-if-absent but
without truncating an existing file: after a successful copy, every
destination byte at an offset at or beyond the source's length is unchanged
(overwrite-from-offset-zero, no-truncate policy). -/
theorem copy_no_truncate_preserves_tail (fs : FS) (sp dp : String)
    (src old : List Byte) (hs : fs.files sp = some src)
    (hd : fs.files (mountJoin dp) = some old) :
    (copy_file_to_mount fs sp dp).2 = Except.ok () ∧
    (copy_file_to_mount fs sp dp).1.files (mountJoin dp) =
      some (src ++ old.drop src.length) ∧
    ∀ i, src.length ≤ i → (src ++ old.drop src.length)[i]? = old[i]? := by
  obtain ⟨h1, h2⟩ := copy_files_char fs sp dp src hs
  rw [hd] at h2
  refine ⟨h1, h2, ?_⟩
  intro i hi
  rw [List.getElem?_append_right (by simpa using hi), List.getElem?_drop]
  congr 1
  omega

theorem copy_no_truncate_preserves_tail_witness :
    (copy_file_to_mount (FS.mk fun q =>
        if q = "s" then some [7] else
        if q = mountJoin "d" then some [1, 2, 3] else none) "s" "d").2 =
      Except.ok () ∧
    (copy_file_to_mount (FS.mk fun q =>
        if q = "s" then some [7] else
        if q = mountJoin "d" then some [1, 2, 3] else none) "s" "d").1.files
      (mountJoin "d") = some ([7] ++ List.drop 1 [1, 2, 3]) ∧
    ([7] ++ List.drop 1 [1, 2, 3])[2]? = [1, 2, 3][2]? := by
  obtain ⟨h1, h2, h3⟩ :=
    copy_no_truncate_preserves_tail
      (FS.mk fun q =>
        if q = "s" then some [7] else
        if q = mountJoin "d" then some [1, 2, 3] else none)
      "s" "d" [7] [1, 2, 3] (by decide) (by decide)
  exact ⟨h1, h2, h3 2 (by decide)⟩

/-- C1 counterexample: with source contents `[7]` and a pre-existing
destination `[1, 2, 3]` that is longer than the source, the copy succeeds
but the destination afterwards reads `[7, 2, 3]`, which is not byte-identical
to the source `[7]` — the round-trip property fails for a longer
pre-existing destination. -/
theorem copy_roundtrip_cex :
    (copy_file_to_mount (FS.mk fun q =>
        if q = "s" then some [7] else
        if q = mountJoin "d" then some [1, 2, 3] else none) "s" "d").2 =
      Except.ok () ∧
    (FS.mk fun q =>
        if q = "s" then some [7] else
        if q = mountJoin "d" then some [1, 2, 3] else none).files "s" =
      some [7] ∧
    (copy_file_to_mount (FS.mk fun q =>
        if q = "s" then some [7] else
        if q = mountJoin "d" then some [1, 2, 3] else none) "s" "d").1.files
      (mountJoin "d") = some [7, 2, 3] ∧
    some ([7, 2, 3] : List Byte) ≠ some [7] := by
  obtain ⟨h1, h2⟩ :=
    copy_files_char
      (FS.mk fun q =>
        if q = "s" then some [7] else
        if q = mountJoin "d" then some [1, 2, 3] else none)
      "s" "d" [7] (by decide)
  refine ⟨h1, by decide, ?_, by decide⟩
  rw [h2]
  decide

/-- C1 (amended): after a successful `copy_file_to_mount`, the destination
holds the source's bytes followed by any prior destination bytes beyond the
source's length; consequently `read(dest) == read(source)` holds whenever the
prior destination file is absent or no longer than the source (the original
claim's "for every prior state, including a longer pre-existing destination"
fails, see the counterexample). -/
theorem copy_roundtrip_of_short_dest (fs : FS) (sp dp : String)
    (src : List Byte) (hs : fs.files sp = some src)
    (hle : ((fs.files (mountJoin dp)).getD []).length ≤ src.length) :
    (copy_file_to_mount fs sp dp).2 = Except.ok () ∧
    (copy_file_to_mount fs sp dp).1.files (mountJoin dp) = some src := by
  obtain ⟨h1, h2⟩ := copy_files_char fs sp dp src hs
  refine ⟨h1, ?_⟩
  rw [h2, List.drop_eq_nil_of_le hle, List.append_nil]

theorem copy_roundtrip_of_short_dest_witness :
    (copy_file_to_mount (FS.mk fun q =>
        if q = "s" then some [7, 8] else none) "s" "d").2 = Except.ok () ∧
    (copy_file_to_mount (FS.mk fun q =>
        if q = "s" then some [7, 8] else none) "s" "d").1.files
      (mountJoin "d") = some [7, 8] :=
  copy_roundtrip_of_short_dest
    (FS.mk fun q => if q = "s" then some [7, 8] else none)
    "s" "d" [7, 8] (by decide) (by decide)

/-- C10: the read/write loop of `copy_file_to_mount` terminates on every
finite source, reading a sequence of chunks that are each nonempty (the loop
exits exactly when a read returns 0 bytes) and of at most 4096 bytes, whose
concatenation is precisely the source; the loop writes exactly those bytes,
in order, at the front of the destination. -/
theorem copy_loop_terminates_chunked (src d : List Byte) :
    (copyChunks src).flatten = src ∧
    (∀ c ∈ copyChunks src, 0 < c.length ∧ c.length ≤ 4096) ∧
    copyLoop src d 0 = overwrite ((copyChunks src).flatten) d := by
  refine ⟨copyChunks_flatten src, copyChunks_bounds_aux src.length src le_rfl, ?_⟩
  rw [copyChunks_flatten src, copyLoop_eq_overwrite]

theorem alloc_files_other (fs : FS) (path : String) (size : Nat) (q : String)
    (h : q ≠ path) :
    (create_fully_allocated_file fs path size).1.files q = fs.files q := by
  unfold create_fully_allocated_file
  repeat' split
  all_goals simp [FS.update, h]

/-- Characterization of the allocator on a valid size (positive and below
`2 ^ 63`, so both syscall arguments are non-negative): the file at `path`
receives the truncated-then-poked contents, the trace is the full syscall
sequence, and the call succeeds. -/
theorem alloc_files_self (fs : FS) (path : String) (size : Nat)
    (h0 : size ≠ 0) (h63 : ¬ 2 ^ 63 ≤ size) :
    (create_fully_allocated_file fs path size).1.files path =
      some (writeAt (size - 1) [0]
        (truncateTo ((fs.files path).getD []) size)) ∧
    (create_fully_allocated_file fs path size).2.1 =
      [FileOp.openCreate, FileOp.ftrunc size, FileOp.seek ((size : Int) - 1),
       FileOp.writeOp 1, FileOp.closeOp] ∧
    (create_fully_allocated_file fs path size).2.2 = Except.ok () := by
  unfold create_fully_allocated_file
  rw [if_neg h63, if_neg h0]
  simp [FS.update]

theorem alloc_content_length (c : List Byte) (size : Nat) (h0 : size ≠ 0) :
    (writeAt (size - 1) [0] (truncateTo c size)).length = size := by
  rw [writeAt_single_length, truncateTo_length]
  omega

theorem alloc_content_last (c : List Byte) (size : Nat) :
    (writeAt (size - 1) [0] (truncateTo c size))[size - 1]? = some 0 :=
  writeAt_single_get 0 (size - 1) _

/-- C6: whenever `create_fully_allocated_file` returns success, the size was
positive, the backing file exists with length exactly `size` and its last
byte (offset `size - 1`) reads zero, and the trace shows the length was set
by a single `ftruncate` followed by a single 1-byte write (not byte-by-byte
writes). -/
theorem alloc_success_length_last_zero (fs : FS) (path : String) (size : Nat)
    (h : (create_fully_allocated_file fs path size).2.2 = Except.ok ()) :
    0 < size ∧
    (create_fully_allocated_file fs path size).1.files path ≠ none ∧
    (((create_fully_allocated_file fs path size).1.files path).getD
        []).length = size ∧
    (((create_fully_allocated_file fs path size).1.files path).getD
        [])[size - 1]? = some 0 ∧
    (create_fully_allocated_file fs path size).2.1 =
      [FileOp.openCreate, FileOp.ftrunc size, FileOp.seek ((size : Int) - 1),
       FileOp.writeOp 1, FileOp.closeOp] := by
  by_cases h63 : 2 ^ 63 ≤ size
  · exfalso
    unfold create_fully_allocated_file at h
    rw [if_pos h63] at h
    simp at h
  · by_cases h0 : size = 0
    · exfalso
      unfold create_fully_allocated_file at h
      rw [if_neg h63, if_pos h0] at h
      simp at h
    · obtain ⟨hf, ht, -⟩ := alloc_files_self fs path size h0 h63
      rw [hf]
      exact ⟨Nat.pos_of_ne_zero h0, by simp,
        by simpa using alloc_content_length _ size h0,
        by simpa using alloc_content_last _ size, ht⟩

theorem alloc_success_length_last_zero_witness :
    0 < 3 ∧
    (create_fully_allocated_file FS.empty "img" 3).1.files "img" ≠ none ∧
    (((create_fully_allocated_file FS.empty "img" 3).1.files "img").getD
        []).length = 3 ∧
    (((create_fully_allocated_file FS.empty "img" 3).1.files "img").getD
        [])[3 - 1]? = some 0 ∧
    (create_fully_allocated_file FS.empty "img" 3).2.1 =
      [FileOp.openCreate, FileOp.ftrunc 3, FileOp.seek ((3 : Int) - 1),
       FileOp.writeOp 1, FileOp.closeOp] :=
  alloc_success_length_last_zero FS.empty "img" 3 (by decide)

/-- C2 (amended): an allocation request with `sizeBytes = 0` is rejected
(the `lseek` to offset `0 - 1 = -1` fails with EINVAL), but only after
`ftruncate(fd, 0)` has already resized the file to length 0 — so the claim's
"no file operations performed beyond creation" fails: a pre-existing file's
contents are destroyed.  No write is performed. -/
theorem alloc_zero_rejects_after_truncate (fs : FS) (path : String) :
    (create_fully_allocated_file fs path 0).2.2 = Except.error 22 ∧
    (create_fully_allocated_file fs path 0).1.files path = some [] ∧
    (create_fully_allocated_file fs path 0).2.1 =
      [FileOp.openCreate, FileOp.ftrunc 0, FileOp.seek (-1)] := by
  unfold create_fully_allocated_file
  simp [truncateTo, FS.update]

/-- C2 counterexample: with a pre-existing file `[1, 2, 3]` at IMAGE_PATH, an
allocation request of size 0 does return an error, but it has already
truncated the file to `[]` via `ftruncate(fd, 0)` — a resize — contradicting
"no file operations performed beyond creation". -/
theorem alloc_zero_cex :
    (create_fully_allocated_file
      (FS.mk fun q => if q = IMAGE_PATH then some [1, 2, 3] else none)
      IMAGE_PATH 0).2.2 = Except.error 22 ∧
    (FS.mk fun q =>
      if q = IMAGE_PATH then some [1, 2, 3] else none).files IMAGE_PATH =
      some [1, 2, 3] ∧
    (create_fully_allocated_file
      (FS.mk fun q => if q = IMAGE_PATH then some [1, 2, 3] else none)
      IMAGE_PATH 0).1.files IMAGE_PATH = some [] ∧
    FileOp.ftrunc 0 ∈ (create_fully_allocated_file
      (FS.mk fun q => if q = IMAGE_PATH then some [1, 2, 3] else none)
      IMAGE_PATH 0).2.1 ∧
    some ([] : List Byte) ≠ some [1, 2, 3] := by
  decide

/-- C7 counterexample: `sizeBytes = 2 ^ 63` is a positive u64, but
`size as i64` is negative, so `ftruncate` fails with EINVAL and both
allocation calls error out, leaving the (newly created) file empty:
calling allocate twice does not leave the file at size `2 ^ 63`. -/
theorem alloc_idempotent_cex :
    (create_fully_allocated_file
      (create_fully_allocated_file FS.empty IMAGE_PATH (2 ^ 63)).1
      IMAGE_PATH (2 ^ 63)).1.files IMAGE_PATH = some [] ∧
    ([] : List Byte).length ≠ 2 ^ 63 ∧
    (create_fully_allocated_file FS.empty IMAGE_PATH (2 ^ 63)).2.2 =
      Except.error 22 := by
  decide

/-- C7 (amended): for every path and every `sizeBytes` with
`0 < sizeBytes < 2 ^ 63` (so the `u64 → i64` casts are non-negative and the
syscalls succeed), calling the allocator twice in succession with the same
path and size succeeds and leaves the filesystem exactly as after the first
call — the file has length exactly `size`, and the second call causes no
growth or corruption. -/
theorem alloc_idempotent_of_size_lt (fs : FS) (path : String) (size : Nat)
    (h0 : 0 < size) (h63 : size < 2 ^ 63) :
    (create_fully_allocated_file
        (create_fully_allocated_file fs path size).1 path size).1 =
      (create_fully_allocated_file fs path size).1 ∧
    (create_fully_allocated_file
        (create_fully_allocated_file fs path size).1 path size).2.2 =
      Except.ok () ∧
    (((create_fully_allocated_file fs path size).1.files path).getD
        []).length = size := by
  have h0' : size ≠ 0 := Nat.pos_iff_ne_zero.mp h0
  have h63' : ¬ 2 ^ 63 ≤ size := not_le.mpr h63
  obtain ⟨hf1, -, -⟩ := alloc_files_self fs path size h0' h63'
  obtain ⟨hf2, -, hok2⟩ :=
    alloc_files_self (create_fully_allocated_file fs path size).1 path size
      h0' h63'
  have hlen : (writeAt (size - 1) [0]
      (truncateTo ((fs.files path).getD []) size)).length = size :=
    alloc_content_length _ size h0'
  have hstable : (create_fully_allocated_file
      (create_fully_allocated_file fs path size).1 path size).1.files path =
      (create_fully_allocated_file fs path size).1.files path := by
    rw [hf2, hf1]
    simp only [Option.getD_some]
    rw [truncateTo_of_length _ _ hlen,
      writeAt_single_of_get 0 _ _ (alloc_content_last _ size)]
  refine ⟨?_, hok2, ?_⟩
  · ext q b
    by_cases hq : q = path
    · subst hq
      rw [hstable]
    · rw [alloc_files_other _ path size q hq]
  · rw [hf1]
    simpa using hlen

theorem alloc_idempotent_of_size_lt_witness :
    (create_fully_allocated_file
        (create_fully_allocated_file FS.empty "img" 3).1 "img" 3).1 =
      (create_fully_allocated_file FS.empty "img" 3).1 ∧
    (create_fully_allocated_file
        (create_fully_allocated_file FS.empty "img" 3).1 "img" 3).2.2 =
      Except.ok () ∧
    (((create_fully_allocated_file FS.empty "img" 3).1.files "img").getD
        []).length = 3 :=
  alloc_idempotent_of_size_lt FS.empty "img" 3 (by decide) (by decide)

/-- C8 counterexample: after a first `mount_virtual_disk` call that succeeds
(so this session's bookkeeping has `isMounted = true`), a second call — the
target directory now exists — does not fail with an AlreadyMounted error and
does not skip the OS mount: it attempts the OS `mount(2)` call and returns
the OS outcome (success here). -/
theorem mount_already_mounted_cex :
    sessionIsMountedAfter ⟨false, none, none⟩ false = true ∧
    MountOp.osMount ∈ (mount_virtual_disk ⟨true, none, none⟩).1 ∧
    (mount_virtual_disk ⟨true, none, none⟩).2 = Except.ok () := by
  decide

/-- C8 (amended): `mount_virtual_disk` keeps no session bookkeeping and has
no AlreadyMounted rejection: whenever the target directory exists (or is
successfully created), it attempts the OS `mount(2)` call — even when the
target is already a mount point for this session — and returns exactly the
OS outcome; duplicate-mount prevention is left entirely to the kernel. -/
theorem mount_no_bookkeeping (env : MountEnv)
    (h : env.targetExists = true ∨ env.mkdirErr = none) :
    MountOp.osMount ∈ (mount_virtual_disk env).1 ∧
    (mount_virtual_disk env).2 =
      (match env.osMountErr with
       | some e => Except.error e
       | none => Except.ok ()) := by
  rcases env with ⟨te, mk, os⟩
  cases te <;> rcases mk with _ | e <;> rcases os with _ | f <;>
    simp_all [mount_virtual_disk]

theorem mount_no_bookkeeping_witness :
    MountOp.osMount ∈ (mount_virtual_disk ⟨true, none, some 16⟩).1 ∧
    (mount_virtual_disk ⟨true, none, some 16⟩).2 = Except.error 16 :=
  mount_no_bookkeeping ⟨true, none, some 16⟩ (Or.inl rfl)

/-- C3: when the transfer step fails with any `TransferError` (including
source-not-found) after allocation, format and mount all succeeded, `main`
reports the copy failure but still proceeds to attempt the unmount step —
a successful mount is never left without an unmount attempt. -/
theorem transfer_failure_still_unmounts (env : OrchEnv) (e : TransferError)
    (ha : env.allocRes = Except.ok ()) (hf : env.formatRes = Except.ok ())
    (hm : env.mountRes = Except.ok ())
    (ht : env.transferRes = Except.error e) :
    PipeStep.unmount ∈ (mainRun env).steps ∧
    "Failed to copy file" ∈ (mainRun env).messages := by
  rcases env with ⟨a, f, m, t, u⟩
  simp only at ha hf hm ht
  subst ha hf hm ht
  cases u <;> simp [mainRun]

theorem transfer_failure_still_unmounts_witness :
    PipeStep.unmount ∈ (mainRun ⟨Except.ok (), Except.ok (), Except.ok (),
      Except.error TransferError.sourceNotFound, Except.ok ()⟩).steps ∧
    "Failed to copy file" ∈ (mainRun ⟨Except.ok (), Except.ok (),
      Except.ok (), Except.error TransferError.sourceNotFound,
      Except.ok ()⟩).messages :=
  transfer_failure_still_unmounts
    ⟨Except.ok (), Except.ok (), Except.ok (),
     Except.error TransferError.sourceNotFound, Except.ok ()⟩
    TransferError.sourceNotFound rfl rfl rfl rfl

/-- C4: when the mount step fails (after successful allocation and format),
`main` aborts immediately: the attempted steps are exactly allocate, format,
mount — neither transfer nor unmount is attempted — and the process exit
code is non-zero. -/
theorem mount_failure_aborts (env : OrchEnv) (e : Nat)
    (ha : env.allocRes = Except.ok ()) (hf : env.formatRes = Except.ok ())
    (hm : env.mountRes = Except.error e) :
    (mainRun env).steps =
      [PipeStep.allocate, PipeStep.format, PipeStep.mount] ∧
    PipeStep.transfer ∉ (mainRun env).steps ∧
    PipeStep.unmount ∉ (mainRun env).steps ∧
    exitCode (mainRun env) ≠ 0 := by
  rcases env with ⟨a, f, m, t, u⟩
  simp only at ha hf hm
  subst ha hf hm
  simp [mainRun, exitCode]

theorem mount_failure_aborts_witness :
    (mainRun ⟨Except.ok (), Except.ok (), Except.error 19, Except.ok (),
      Except.ok ()⟩).steps =
      [PipeStep.allocate, PipeStep.format, PipeStep.mount] ∧
    PipeStep.transfer ∉ (mainRun ⟨Except.ok (), Except.ok (),
      Except.error 19, Except.ok (), Except.ok ()⟩).steps ∧
    PipeStep.unmount ∉ (mainRun ⟨Except.ok (), Except.ok (),
      Except.error 19, Except.ok (), Except.ok ()⟩).steps ∧
    exitCode (mainRun ⟨Except.ok (), Except.ok (), Except.error 19,
      Except.ok (), Except.ok ()⟩) ≠ 0 :=
  mount_failure_aborts
    ⟨Except.ok (), Except.ok (), Except.error 19, Except.ok (), Except.ok ()⟩
    19 rfl rfl rfl

/-- C5: the process exit code of `main` is non-zero if and only if one of
the fatal steps — allocate, format, or mount — fails; when all three
succeed, the exit code is zero even if the transfer or unmount step reported
an error. -/
theorem exit_nonzero_iff_fatal_failure (env : OrchEnv) :
    exitCode (mainRun env) ≠ 0 ↔
      (isErrB env.allocRes = true ∨ isErrB env.formatRes = true ∨
       isErrB env.mountRes = true) := by
  rcases env with ⟨a, f, m, t, u⟩
  cases a <;> cases f <;> cases m <;> cases t <;> cases u <;>
    simp [mainRun, exitCode, isErrB]
